import Mathlib

/-!
Verification development for the logbundle-go repository.

The Go sources are shallowly embedded: pure functions become Lean functions,
Go `map[string]T` values become association lists manipulated through `mapSet`
(assignment with overwrite, insertion order preserved for fresh keys), the
dynamic `any` attribute values that the library type-switches on become the
closed sum `GoValue`, and the side effects that matter to the specification
(lines written, events forwarded to the error tracker, responses sent) are
made explicit as returned data.  slog levels are embedded as integers with
the values used by the Go standard library.
-/

namespace LogBundle

/-- slog.LevelDebug -/
def levelDebug : Int := -4

/-- slog.LevelInfo -/
def levelInfo : Int := 0

/-- slog.LevelWarn -/
def levelWarn : Int := 4

/-- slog.LevelError -/
def levelError : Int := 8

/-- A dynamically typed Go value (`any`) as far as this library inspects one:
the type switches in `extractSentryData`, `parseExtraData` and the context
maps of `lgerr.Error` distinguish exactly these cases.  A `floatV` carries
the `fmt.Sprintf("%f", v)` rendering of the float, since the library never
computes with floats, it only renders them; an `errV` carries an identity
for a value implementing the `error` interface; `otherV` stands for every
other dynamic type. -/
inductive GoValue where
  | errV (id : Nat)
  | strV (s : String)
  | intV (n : Int)
  | int64V (n : Int)
  | floatV (rendered : String)
  | boolV (b : Bool)
  | otherV (id : Nat)
  deriving DecidableEq, Repr

/-- Byte length of a string: Go `len(s)` on a string counts bytes. -/
def goLen (s : String) : Nat := s.utf8ByteSize

/-- Go `strings.Contains(s, "\n")`: the newline byte occurs in `s`. -/
def goContainsNewline (s : String) : Bool := s.data.contains '\n'

/-- ASCII lowering of one character, the case Go's `strings.ToLower`
applies to the ASCII range (the only range that can produce the ASCII
level names compared against). -/
def charLowerGo (c : Char) : Char :=
  if 'A' ≤ c ∧ c ≤ 'Z' then Char.ofNat (c.toNat + 32) else c

/-- Go `strings.ToLower` restricted to ASCII case mapping. -/
def toLowerGo (s : String) : String := String.mk (s.data.map charLowerGo)

/-- Go map assignment `m[k] = v` on an association list: overwrite the
binding if the key is present, append it otherwise. -/
def mapSet {α : Type} (m : List (String × α)) (k : String) (v : α) :
    List (String × α) :=
  if m.any (fun p => p.1 = k) then
    m.map (fun p => if p.1 = k then (k, v) else p)
  else m ++ [(k, v)]

namespace core

/-- pkg/core/levels.go `GetLvlFromStr`: case-insensitive parse of a level
name, `"warn"` and `"warning"` both map to warn, anything else defaults to
warn.  The Go `switch strings.ToLower(s)` is a sequence of comparisons. -/
def GetLvlFromStr (s : String) : Int :=
  let t := toLowerGo s
  if t = "debug" then levelDebug
  else if t = "info" then levelInfo
  else if t = "warn" ∨ t = "warning" then levelWarn
  else if t = "error" then levelError
  else levelWarn

/-- pkg/core/levels.go `GetLvlFromEnv`: `env` is `os.Getenv`, which returns
`""` for an unset variable. -/
def GetLvlFromEnv (env : String → String) (key : String) : Int :=
  if env key ≠ "" then GetLvlFromStr (env key) else levelWarn

end core

namespace coreUtils

/-- pkg/core/utils.go `GetLvlFromStr` (the second, case-sensitive copy of
the parser living in the same package): only the exact strings `"debug"`,
`"warn"` and `"error"` are recognised; there is no `"info"` case. -/
def GetLvlFromStr (s : String) : Int :=
  if s = "debug" then levelDebug
  else if s = "warn" then levelWarn
  else if s = "error" then levelError
  else levelWarn

/-- pkg/core/utils.go `GetLvlFromEnv`. -/
def GetLvlFromEnv (env : String → String) (key : String) : Int :=
  if env key ≠ "" then GetLvlFromStr (env key) else levelWarn

end coreUtils

namespace lgerr

/-- lgerr.ErrorType is a string tag. -/
abbrev ErrorType := String

def TypeInternal : ErrorType := "internal"
def TypeNotFound : ErrorType := "not_found"
def TypeValidation : ErrorType := "validation"
def TypeDatabase : ErrorType := "database"
def TypeBusy : ErrorType := "busy"
def TypeForbidden : ErrorType := "forbidden"
def TypeBadInput : ErrorType := "bad_input"
def TypeUnauth : ErrorType := "unauthorized"
def TypeConflict : ErrorType := "conflict"
def TypeExternal : ErrorType := "external"
def TypeTimeout : ErrorType := "timeout"

/-- lgerr.ValidationError: one field-level validation failure.  The Go
`Value any` field is optional (omitted when the variadic argument of
`WithValidationError` is empty). -/
structure ValidationError where
  field : String
  message : String
  value : Option GoValue := none
  deriving DecidableEq, Repr

/-- lgerr.ErrorResponse, the RFC-7807-style response payload. -/
structure ErrorResponse where
  title : String
  detail : String
  errors : List ValidationError
  meta : List (String × GoValue)
  deriving DecidableEq, Repr

/-- lgerr.Error.  The runtime-introspection fields (`file`, `line`,
`stackTrace`) are not part of any claim and are omitted; `wrapped`
carries the rendered message of the wrapped error when one is set. -/
structure Error where
  message : String
  title : String
  detail : String
  errorType : ErrorType
  httpStatus : Option Int
  context : List (String × GoValue)
  ignoreSentry : Bool
  validationErrors : List ValidationError
  wrapped : Option String
  deriving DecidableEq, Repr

/-- The default classification table installed by `init()` in lgerr.go. -/
def httpStatusMap : List (ErrorType × Int) :=
  [(TypeInternal, 500), (TypeNotFound, 404), (TypeValidation, 400),
   (TypeDatabase, 500), (TypeBusy, 503), (TypeForbidden, 403),
   (TypeBadInput, 400), (TypeUnauth, 401), (TypeConflict, 409),
   (TypeExternal, 502), (TypeTimeout, 504)]

/-- lgerr.getHTTPStatus: custom mapping first, then the default table,
then 500 for unknown classifications.  The process-global
`customTypeMapping` (nil modelled as `[]`) is passed explicitly. -/
def getHTTPStatus (customTypeMapping : List (ErrorType × Int))
    (errType : ErrorType) : Int :=
  match customTypeMapping.lookup errType with
  | some status => status
  | none =>
    match httpStatusMap.lookup errType with
    | some status => status
    | none => 500

/-- lgerr.GetHTTPStatus (public wrapper of getHTTPStatus). -/
def GetHTTPStatus (customTypeMapping : List (ErrorType × Int))
    (errType : ErrorType) : Int :=
  getHTTPStatus customTypeMapping errType

/-- lgerr.New: fresh error of type internal with no override and no
context (stack capture omitted). -/
def New (message : String) : Error :=
  { message := message, title := "", detail := "",
    errorType := TypeInternal, httpStatus := none, context := [],
    ignoreSentry := false, validationErrors := [], wrapped := none }

def Error.WithType (e : Error) (errType : ErrorType) : Error :=
  { e with errorType := errType }

def Error.WithContext (e : Error) (key : String) (value : GoValue) : Error :=
  { e with context := mapSet e.context key value }

def Error.WithHTTPStatus (e : Error) (status : Int) : Error :=
  { e with httpStatus := some status }

/-- lgerr.(*Error).Wrap stores the wrapped error (its rendered message). -/
def Error.Wrap (e : Error) (err : String) : Error :=
  { e with wrapped := some err }

/-- lgerr.(*Error).SetHTTPStatus, the non-chainable twin of WithHTTPStatus. -/
def Error.SetHTTPStatus (e : Error) (status : Int) : Error :=
  { e with httpStatus := some status }

def Error.IgnoreSentry (e : Error) : Error :=
  { e with ignoreSentry := true }

def Error.ShouldIgnoreSentry (e : Error) : Bool := e.ignoreSentry

def Error.WithTitle (e : Error) (title : String) : Error :=
  { e with title := title }

def Error.WithDetail (e : Error) (detail : String) : Error :=
  { e with detail := detail }

/-- lgerr.(*Error).WithValidationError appends one failure; the variadic
`value ...any` contributes a value exactly when non-empty. -/
def Error.WithValidationError (e : Error) (field message : String)
    (value : Option GoValue := none) : Error :=
  { e with validationErrors :=
      e.validationErrors ++ [{ field := field, message := message, value := value }] }

/-- lgerr.(*Error).WithValidationErrors replaces the whole list. -/
def Error.WithValidationErrors (e : Error) (errors : List ValidationError) :
    Error :=
  { e with validationErrors := errors }

/-- lgerr.(*Error).Error(): message, or "message: wrapped" when wrapping. -/
def Error.goError (e : Error) : String :=
  match e.wrapped with
  | some w => e.message ++ ": " ++ w
  | none => e.message

/-- lgerr.(*Error).HTTPStatus: per-instance override first, else the
classification lookup. -/
def Error.HTTPStatus (e : Error)
    (customTypeMapping : List (ErrorType × Int)) : Int :=
  match e.httpStatus with
  | some status => status
  | none => getHTTPStatus customTypeMapping e.errorType

def Error.HasValidationErrors (e : Error) : Bool :=
  e.validationErrors.length > 0

/-- lgerr.(*Error).ToErrorResponse: title/detail/errors copied over, the
context becomes `meta` when non-empty (a nil map renders the same as an
absent one, so both branches agree on `[]`). -/
def Error.ToErrorResponse (e : Error) : ErrorResponse :=
  { title := e.title, detail := e.detail, errors := e.validationErrors,
    meta := if e.context.length > 0 then e.context else [] }

/-- lgerr ErrorOption (error_options.go). -/
abbrev ErrorOption := Error → Error

def WithMessage (message : String) : ErrorOption :=
  fun e => { e with message := message }

def WithTypeOpt (errType : ErrorType) : ErrorOption :=
  fun e => { e with errorType := errType }

def WithTitleOpt (title : String) : ErrorOption :=
  fun e => { e with title := title }

def WithDetailOpt (detail : String) : ErrorOption :=
  fun e => { e with detail := detail }

/-- lgerr.WithContextKV: the context-entry option used by the factories. -/
def WithContextKV (key : String) (value : GoValue) : ErrorOption :=
  fun e => { e with context := mapSet e.context key value }

/-- lgerr.NewWithOptions: `New("")` then the options applied in order. -/
def NewWithOptions (opts : List ErrorOption) : Error :=
  opts.foldl (fun e opt => opt e) (New "")

/-- lgerr.NotFound (factories.go): canned not-found error. -/
def NotFound (resource : String) (id : GoValue) : Error :=
  NewWithOptions
    [WithMessage (resource ++ " not found"),
     WithTypeOpt TypeNotFound,
     WithContextKV "resource" (GoValue.strV resource),
     WithContextKV "resource_id" id,
     WithTitleOpt "Resource Not Found",
     WithDetailOpt ("The requested " ++ resource ++ " does not exist")]

/-- lgerr.Internal (factories.go). -/
def Internal (message : String) : Error :=
  { New message with errorType := TypeInternal, title := "Internal Server Error" }

end lgerr

namespace erri

/-- erri.ErriType is a string tag. -/
abbrev ErriType := String

/-- erri.(*Erri).HTTPStatusCode (types.go): the switch over the ErriStruct
constants; the Go body returns `net/http` status constants, in particular
`http.StatusConflict` (409) for `BUSY` and
`http.StatusInternalServerError` (500) as the default. -/
def HTTPStatusCode (t : ErriType) : Int :=
  if t = "NOT_FOUND" then 404
  else if t = "VALIDATION" then 400
  else if t = "DATABASE" then 500
  else if t = "INTERNAL" then 500
  else if t = "FORBIDDEN" then 403
  else if t = "BUSY" then 409
  else if t = "WRONG_INPUT" then 400
  else 500

end erri

namespace config

/-- pkg/config/sentry.go: the process-global error-tracking configuration.
`sentryEnabled` defaults to false, `sentryMinHTTPStatus` to 500. -/
structure SentryConfig where
  sentryEnabled : Bool := false
  sentryMinHTTPStatus : Int := 500
  deriving DecidableEq, Repr

/-- config.IsSentryEnabled. -/
def IsSentryEnabled (c : SentryConfig) : Bool := c.sentryEnabled

/-- config.GetSentryMinHTTPStatus. -/
def GetSentryMinHTTPStatus (c : SentryConfig) : Int := c.sentryMinHTTPStatus

end config

namespace lgsentry

/-- A slog attribute: key plus dynamically typed value. -/
structure Attr where
  key : String
  value : GoValue
  deriving DecidableEq, Repr

/-- utils.go maxTagLength. -/
def maxTagLength : Nat := 100

/-- The loop body of lgsentry.extractSentryData (utils.go), with the two
result maps and the first-error register threaded through.  Branch order
follows the Go source: the error check fires only while `errorValue` is
still nil; a string is tagged only when shorter than 100 bytes and free of
newlines; the trailing type switch tags int/int64/bool and sends
everything else (long strings, floats, later errors, other types) to
extra. -/
def extractGo : List Attr → List (String × String) →
    List (String × GoValue) → Option Nat →
    List (String × String) × List (String × GoValue) × Option Nat
  | [], tags, extra, errorValue => (tags, extra, errorValue)
  | a :: rest, tags, extra, errorValue =>
    match a.value, errorValue with
    | .errV i, none => extractGo rest tags extra (some i)
    | .errV i, some e =>
      extractGo rest tags (mapSet extra a.key (.errV i)) (some e)
    | .strV s, ev =>
      if goLen s < maxTagLength ∧ goContainsNewline s = false then
        extractGo rest (mapSet tags a.key s) extra ev
      else
        extractGo rest tags (mapSet extra a.key (.strV s)) ev
    | .intV n, ev => extractGo rest (mapSet tags a.key (toString n)) extra ev
    | .int64V n, ev => extractGo rest (mapSet tags a.key (toString n)) extra ev
    | .boolV b, ev =>
      extractGo rest (mapSet tags a.key (if b then "true" else "false")) extra ev
    | .floatV r, ev => extractGo rest tags (mapSet extra a.key (.floatV r)) ev
    | .otherV i, ev => extractGo rest tags (mapSet extra a.key (.otherV i)) ev

/-- lgsentry.extractSentryData: tags, extra and the first error value. -/
def extractSentryData (attrs : List Attr) :
    List (String × String) × List (String × GoValue) × Option Nat :=
  extractGo attrs [] [] none

/-- The loop body of lgsentry.parseExtraData (manual.go).  Error values are
skipped outright; short newline-free strings and int/int64/float64/bool
become tags (floats rendered with `%f`); everything else goes to extra. -/
def parseGo : List Attr → List (String × String) → List (String × GoValue) →
    List (String × String) × List (String × GoValue)
  | [], tags, extra => (tags, extra)
  | a :: rest, tags, extra =>
    match a.value with
    | .errV _ => parseGo rest tags extra
    | .strV s =>
      if goLen s < maxTagLength ∧ goContainsNewline s = false then
        parseGo rest (mapSet tags a.key s) extra
      else
        parseGo rest tags (mapSet extra a.key (.strV s))
    | .intV n => parseGo rest (mapSet tags a.key (toString n)) extra
    | .int64V n => parseGo rest (mapSet tags a.key (toString n)) extra
    | .floatV r => parseGo rest (mapSet tags a.key r) extra
    | .boolV b =>
      parseGo rest (mapSet tags a.key (if b then "true" else "false")) extra
    | .otherV i => parseGo rest tags (mapSet extra a.key (.otherV i))

/-- lgsentry.parseExtraData: the manual-capture attribute splitter (elements
of the Go `[]any` that are not `slog.Attr` are skipped before this loop and
are not modelled). -/
def parseExtraData (extraData : List Attr) :
    List (String × String) × List (String × GoValue) :=
  parseGo extraData [] []

/-- The global lgsentry integration state (logging.go): whether `Init`
succeeded and the configured slog level filter. -/
structure Integration where
  initiated : Bool := false
  filterLevels : List Int := []
  deriving DecidableEq, Repr

/-- Number of events lgsentry.CaptureEventForSlog (logging.go) forwards to
the tracker for a record at `level`: zero unless `Init` has succeeded and
some configured filter level is at or below the record level, one
otherwise (the body then captures exactly one exception or message).
Note: this function never consults config.IsSentryEnabled. -/
def CaptureEventForSlogCount (g : Integration) (level : Int) : Nat :=
  if g.initiated = false then 0
  else if g.filterLevels.any (fun l => level ≥ l) then 1 else 0

/-- Number of events lgsentry.CaptureEvent (manual.go) forwards: zero when
the global flag is off or the context is already cancelled, one otherwise. -/
def CaptureEventCount (cfg : config.SentryConfig) (ctxDone : Bool) : Nat :=
  if ¬config.IsSentryEnabled cfg then 0
  else if ctxDone then 0
  else 1

end lgsentry

namespace handler

/-- internal/handler CustomHandler configuration. -/
structure CustomHandler where
  level : Int
  addSource : Bool
  enableSentry : Bool
  deriving DecidableEq, Repr

/-- CustomHandler.Enabled: records at or above the configured minimum. -/
def CustomHandler.Enabled (h : CustomHandler) (level : Int) : Bool :=
  level ≥ h.level

/-- Observable effects of handling one record: output lines written and
events forwarded to the tracker. -/
structure HandleEffect where
  linesWritten : Nat
  sentryEvents : Nat
  deriving DecidableEq, Repr

/-- CustomHandler.Handle: always writes exactly one formatted line, then
tees the record to lgsentry.CaptureEventForSlog when `enableSentry` is set. -/
def CustomHandler.Handle (h : CustomHandler) (g : lgsentry.Integration)
    (level : Int) : HandleEffect :=
  { linesWritten := 1
  , sentryEvents :=
      if h.enableSentry then lgsentry.CaptureEventForSlogCount g level else 0 }

end handler

namespace logger

/-- internal/logger.LogWithSource: early return (no record is built, no
handler is invoked) unless the handler reports the level enabled. -/
def LogWithSource (h : handler.CustomHandler) (g : lgsentry.Integration)
    (level : Int) : handler.HandleEffect :=
  if ¬h.Enabled level then { linesWritten := 0, sentryEvents := 0 }
  else h.Handle g level

end logger

namespace lgfiber

/-- lgfiber.shouldSendToSentry (handler.go): global flag, hub presence,
per-error opt-out, then the minimum-status threshold (0 means send all). -/
def shouldSendToSentry (cfg : config.SentryConfig)
    (customTypeMapping : List (lgerr.ErrorType × Int))
    (lgErr : lgerr.Error) (hubPresent : Bool) : Bool :=
  if ¬config.IsSentryEnabled cfg then false
  else if ¬hubPresent ∨ lgErr.ShouldIgnoreSentry then false
  else if config.GetSentryMinHTTPStatus cfg = 0 then true
  else lgErr.HTTPStatus customTypeMapping ≥ config.GetSentryMinHTTPStatus cfg

/-- The error value handed to the Fiber error handler: an lgerr.Error, a
*fiber.Error with a status code, or a generic error.  The non-lgerr
constructors carry the rendered message and the `%T` type name used for
the `original_error_type` context entry. -/
inductive FiberError where
  | lg (e : lgerr.Error)
  | fiberErr (code : Int) (msg typeName : String)
  | generic (msg typeName : String)
  deriving DecidableEq, Repr

/-- The lgerr.Error the error handler works with: the error itself when it
already is one, otherwise the lgerr.Internal conversion performed at the
top of ErrorHandler (wrap, status from the fiber error or 500, fixed
title, original type recorded in context). -/
def toLgError : FiberError → lgerr.Error
  | .lg e => e
  | .fiberErr code msg typeName =>
    ((((lgerr.Internal msg).Wrap msg).WithHTTPStatus code).WithTitle
        "Internal Server Error").WithContext "original_error_type"
      (.strV typeName)
  | .generic msg typeName =>
    ((((lgerr.Internal msg).Wrap msg).WithHTTPStatus 500).WithTitle
        "Internal Server Error").WithContext "original_error_type"
      (.strV typeName)

/-- What lgfiber.ErrorHandler sends back to the client. -/
structure HandlerResponse where
  status : Int
  payload : lgerr.ErrorResponse
  deriving DecidableEq, Repr

/-- lgfiber.ErrorHandler (handler.go): convert to an lgerr.Error if needed,
forward one event to the tracker when shouldSendToSentry allows it
(captureToSentry captures exactly one event), and answer with the error's
HTTP status and RFC-7807 payload.  Result: response and forwarded-event
count. -/
def ErrorHandler (cfg : config.SentryConfig)
    (customTypeMapping : List (lgerr.ErrorType × Int))
    (hubPresent : Bool) (err : FiberError) : HandlerResponse × Nat :=
  let lgErr := toLgError err
  let sent :=
    if shouldSendToSentry cfg customTypeMapping lgErr hubPresent then 1 else 0
  ({ status := lgErr.HTTPStatus customTypeMapping
   , payload := lgErr.ToErrorResponse }, sent)

/-- What a downstream Fiber handler chain did: returned normally, returned
an error, or panicked with some value (rendered by `%v`). -/
inductive DownstreamOutcome where
  | ok
  | err (e : FiberError)
  | panicked (v : String)
  deriving DecidableEq, Repr

/-- Observable effects of lgfiber.RecoverMiddleware around one request. -/
structure RecoverOutcome where
  responses : List (Int × String × String) := []
  sentryPanicEvents : Nat := 0
  eventTags : List (String × String) := []
  errorLogLines : Nat := 0
  panicPropagated : Bool := false
  deriving DecidableEq, Repr

/-- lgfiber.RecoverMiddleware (middleware.go): the deferred recover
swallows a panic, optionally forwards exactly one exception event through
hub.RecoverWithContext (when the global flag is on and a hub is attached
to the request), always logs one error line and writes exactly one
500 response; a run without panic passes through untouched.  `file` and
`line` are the application frame that
core.ExtractErrorLocationWithDetails parsed out of the stack text. -/
def RecoverMiddleware (cfg : config.SentryConfig) (hubPresent : Bool)
    (file : String) (line : Int) :
    DownstreamOutcome → RecoverOutcome
  | .panicked _ =>
    let send := config.IsSentryEnabled cfg ∧ hubPresent
    { responses := [(500, "Internal Server Error", "An unexpected error occurred")]
    , sentryPanicEvents := if send then 1 else 0
    , eventTags :=
        if send then
          [("panic_recovered", "true"), ("error_source", "panic_recovery")] ++
            (if file ≠ "" ∧ line > 0 then
              [("panic_file", file), ("panic_line", toString line)]
            else [])
        else []
    , errorLogLines := 1
    , panicPropagated := false }
  | _ => {}

/-- lgfiber.ValidationConfig (validation.go).  The `Logger`/`Validator`
pointers only matter through their presence: a nil validator is replaced
by the default one (which changes nothing observable here, the validation
outcome is a parameter below), a nil logger suppresses the log lines. -/
structure ValidationConfig where
  hasLogger : Bool := false
  localsKey : String := ""
  title : String := ""
  detail : String := ""
  deriving DecidableEq, Repr

/-- One validator.FieldError as the middleware reads it: the struct field
name, the dto's json struct tag for that field (`""` when there is no tag,
no such field, or the dto is not a struct — the cases where Go's
reflection walk in getJSONFieldName comes back empty), the violated rule
tag, its parameter and the offending value. -/
structure FieldErr where
  field : String
  jsonTag : String
  tag : String
  param : String
  value : GoValue
  deriving DecidableEq, Repr

/-- lgfiber.getJSONFieldName (validation.go), applied to the reflected
json tag: empty tag or a `-` name yield `""`, otherwise the part before
the first comma. -/
def getJSONFieldName (jsonTag : String) : String :=
  if jsonTag = "" then ""
  else
    let firstPart := String.mk (jsonTag.data.takeWhile fun c => c ≠ ',')
    if firstPart = "-" then "" else firstPart

/-- lgfiber.getValidationMessage (validation.go): the switch over rule
tags. -/
def getValidationMessage (fe : FieldErr) : String :=
  if fe.tag = "required" then "This field is required"
  else if fe.tag = "email" then "Invalid email format"
  else if fe.tag = "min" then "Value is too short or small (min: " ++ fe.param ++ ")"
  else if fe.tag = "max" then "Value is too long or large (max: " ++ fe.param ++ ")"
  else if fe.tag = "len" then "Value must have length of " ++ fe.param
  else if fe.tag = "gt" then "Value must be greater than " ++ fe.param
  else if fe.tag = "gte" then "Value must be greater than or equal to " ++ fe.param
  else if fe.tag = "lt" then "Value must be less than " ++ fe.param
  else if fe.tag = "lte" then "Value must be less than or equal to " ++ fe.param
  else if fe.tag = "url" then "Invalid URL format"
  else if fe.tag = "uuid" then "Invalid UUID format"
  else if fe.tag = "alpha" then "Only alphabetic characters allowed"
  else if fe.tag = "alphanum" then "Only alphanumeric characters allowed"
  else if fe.tag = "numeric" then "Only numeric characters allowed"
  else if fe.tag = "oneof" then "Value must be one of: " ++ fe.param
  else "Validation failed: " ++ fe.tag

/-- lgfiber.parseValidationErrors (validation.go): a
validator.ValidationErrors value (`some fieldErrs`) maps to one response
entry per field error, field name taken from the json tag with the
lower-cased struct field name as fallback; any other error value (`none`)
yields nil. -/
def parseValidationErrors (errs : Option (List FieldErr)) :
    List lgerr.ValidationError :=
  match errs with
  | some fieldErrs =>
    fieldErrs.map fun fe =>
      let tagName := getJSONFieldName fe.jsonTag
      let fieldName := if tagName = "" then toLowerGo fe.field else tagName
      { field := fieldName, message := getValidationMessage fe,
        value := some fe.value }
  | none => []

/-- What the parser function handed to genericValidationMiddleware did. -/
inductive ParseOutcome where
  | failed (msg : String)
  | parsed
  deriving DecidableEq, Repr

/-- What config.Validator.Struct(dto) returned: nil, a
validator.ValidationErrors list, or some other error. -/
inductive ValidateOutcome where
  | ok
  | invalid (fieldErrs : List FieldErr)
  | otherError
  deriving DecidableEq, Repr

/-- Observable outcome of one request through a validation middleware. -/
structure MWResult where
  status : Option Int := none
  payload : Option lgerr.ErrorResponse := none
  localsStored : Option String := none
  nextCalled : Bool := false
  warnLogLines : Nat := 0
  debugLogLines : Nat := 0
  deriving DecidableEq, Repr

/-- lgfiber.genericValidationMiddleware (validation.go): empty title
defaults to "Validation Error" at middleware creation; a parse failure
answers 400 with a fixed title; a validation error with at least one
parsed field entry answers 422 with the configured title/detail and one
entry per field error; otherwise the dto is stored under the locals key
and the chain continues. -/
def genericValidationMiddleware (config0 : ValidationConfig)
    (parse : ParseOutcome) (validate : ValidateOutcome) : MWResult :=
  let conf : ValidationConfig :=
    { config0 with
      title := if config0.title = "" then "Validation Error" else config0.title }
  match parse with
  | .failed msg =>
    { status := some 400
    , payload := some { title := "Invalid Request Format"
                      , detail := "Failed to parse request: " ++ msg
                      , errors := [], meta := [] }
    , warnLogLines := if conf.hasLogger then 1 else 0 }
  | .parsed =>
    match validate with
    | .ok => { localsStored := some conf.localsKey, nextCalled := true }
    | verr =>
      let validationErrors :=
        parseValidationErrors
          (match verr with | .invalid l => some l | _ => none)
      if validationErrors.length > 0 then
        { status := some 422
        , payload := some { title := conf.title
                          , detail := if conf.detail ≠ "" then conf.detail else ""
                          , errors := validationErrors, meta := [] }
        , debugLogLines := if conf.hasLogger then 1 else 0 }
      else { localsStored := some conf.localsKey, nextCalled := true }

/-- The global default config for body validation (init in validation.go);
the form middleware reuses it with locals key "form_data". -/
def defaultBodyConfig : ValidationConfig :=
  { localsKey := "body", title := "Validation Error",
    detail := "Please check your request body" }

/-- The global default config for query validation. -/
def defaultQueryConfig : ValidationConfig :=
  { localsKey := "query", title := "Invalid Query Parameters",
    detail := "Please check your query parameters" }

/-- The global default config for route-params validation. -/
def defaultParamsConfig : ValidationConfig :=
  { localsKey := "params", title := "Invalid Route Parameters",
    detail := "Please check your route parameters" }

/-- The global default config for headers validation. -/
def defaultHeadersConfig : ValidationConfig :=
  { localsKey := "headers", title := "Invalid Request Headers",
    detail := "Please check your request headers" }

end lgfiber

namespace lgsentry

/-- Spec-side classification (from the spec sentence behind C9, to compare
with extractSentryData): values the splitter turns into tags. -/
def isTagValue : GoValue → Bool
  | .strV s => decide (goLen s < maxTagLength ∧ goContainsNewline s = false)
  | .intV _ => true
  | .int64V _ => true
  | .boolV _ => true
  | _ => false

/-- Spec-side rendering of a tag value (strings verbatim, ints in decimal,
bools as true/false, floats by their carried `%f` image). -/
def tagRender : GoValue → String
  | .strV s => s
  | .intV n => toString n
  | .int64V n => toString n
  | .boolV b => if b then "true" else "false"
  | .floatV r => r
  | .errV _ => ""
  | .otherV _ => ""

/-- Whether a value implements the error interface. -/
def isErrValue : GoValue → Bool
  | .errV _ => true
  | _ => false

/-- The error identity carried by an error value. -/
def errId : GoValue → Option Nat
  | .errV i => some i
  | _ => none

/-- Spec-side tag list: the tag-classified attributes in order. -/
def tagsSpec (attrs : List Attr) : List (String × String) :=
  attrs.filterMap fun a =>
    if isTagValue a.value then some (a.key, tagRender a.value) else none

/-- One attribute's contribution to extra data: everything that is not
tag-classified. -/
def extraOf (a : Attr) : Option (String × GoValue) :=
  if isTagValue a.value then none else some (a.key, a.value)

/-- Spec-side extra list once an error has already been extracted: every
non-tag value, later errors included. -/
def extraSeenSpec (attrs : List Attr) : List (String × GoValue) :=
  attrs.filterMap extraOf

/-- Spec-side extra list: the first error-valued attribute is extracted as
the primary exception and removed; every remaining non-tag value lands in
extra. -/
def extraSpec (attrs : List Attr) : List (String × GoValue) :=
  (attrs.eraseP fun a => isErrValue a.value).filterMap extraOf

/-- Spec-side primary exception: the first error-typed attribute value. -/
def firstErrId (attrs : List Attr) : Option Nat :=
  attrs.findSome? fun a => errId a.value

/-- Spec-side classification for the manual-capture splitter
parseExtraData: floats are tagged as well. -/
def isManualTagValue : GoValue → Bool
  | .strV s => decide (goLen s < maxTagLength ∧ goContainsNewline s = false)
  | .intV _ => true
  | .int64V _ => true
  | .floatV _ => true
  | .boolV _ => true
  | _ => false

/-- Spec-side tag list for parseExtraData. -/
def manualTagsSpec (attrs : List Attr) : List (String × String) :=
  attrs.filterMap fun a =>
    if isManualTagValue a.value then some (a.key, tagRender a.value) else none

/-- Spec-side extra list for parseExtraData: error values are dropped
outright, tag-classified values go to tags, the rest to extra. -/
def manualExtraSpec (attrs : List Attr) : List (String × GoValue) :=
  attrs.filterMap fun a =>
    if isManualTagValue a.value || isErrValue a.value then none
    else some (a.key, a.value)

end lgsentry

namespace lgerr

/-- Repeatedly adding validation failures through WithValidationError, as a
fold (the "repeated WithValidationError" wording of the round-trip claim). -/
def Error.addValidationFailures (e : Error)
    (failures : List (String × String × Option GoValue)) : Error :=
  failures.foldl (fun acc f => acc.WithValidationError f.1 f.2.1 f.2.2) e

lemma addValidationFailures_validationErrors
    (failures : List (String × String × Option GoValue)) :
    ∀ e : Error, (e.addValidationFailures failures).validationErrors =
      e.validationErrors ++
        failures.map (fun f =>
          { field := f.1, message := f.2.1, value := f.2.2 }) := by
  induction failures with
  | nil => intro e; simp [Error.addValidationFailures]
  | cons f rest ih =>
    intro e
    simp only [Error.addValidationFailures, List.foldl_cons, List.map_cons]
    have := ih (e.WithValidationError f.1 f.2.1 f.2.2)
    simp only [Error.addValidationFailures] at this
    rw [this]
    simp [Error.WithValidationError]

end lgerr

/--
C1.  For every rich error value, `HTTPStatus()` returns the per-instance
overridden status when one was set via WithHTTPStatus/SetHTTPStatus;
otherwise the status looked up for its classification in the
custom-then-default mapping table; otherwise 500 when the classification
appears in neither table.
-/
theorem c1_httpStatus_resolution :
    (∀ (e : lgerr.Error) (custom : List (lgerr.ErrorType × Int)) (s : Int),
      (e.WithHTTPStatus s).HTTPStatus custom = s ∧
      (e.SetHTTPStatus s).HTTPStatus custom = s) ∧
    (∀ (e : lgerr.Error) (custom : List (lgerr.ErrorType × Int)) (c : Int),
      e.httpStatus = none → custom.lookup e.errorType = some c →
      e.HTTPStatus custom = c) ∧
    (∀ (e : lgerr.Error) (custom : List (lgerr.ErrorType × Int)) (d : Int),
      e.httpStatus = none → custom.lookup e.errorType = none →
      lgerr.httpStatusMap.lookup e.errorType = some d →
      e.HTTPStatus custom = d) ∧
    (∀ (e : lgerr.Error) (custom : List (lgerr.ErrorType × Int)),
      e.httpStatus = none → custom.lookup e.errorType = none →
      lgerr.httpStatusMap.lookup e.errorType = none →
      e.HTTPStatus custom = 500) := by
  refine ⟨fun e custom s => ⟨rfl, rfl⟩, ?_, ?_, ?_⟩
  · intro e custom c h1 h2
    simp [lgerr.Error.HTTPStatus, h1, lgerr.getHTTPStatus, h2]
  · intro e custom d h1 h2 h3
    simp [lgerr.Error.HTTPStatus, h1, lgerr.getHTTPStatus, h2, h3]
  · intro e custom h1 h2 h3
    simp [lgerr.Error.HTTPStatus, h1, lgerr.getHTTPStatus, h2, h3]

/-- Witness for C1 at concrete inputs. -/
theorem c1_httpStatus_resolution_witness :
    ((lgerr.New "boom").WithHTTPStatus 418).HTTPStatus [] = 418 ∧
    (lgerr.New "boom").httpStatus = none ∧
    (lgerr.New "boom").HTTPStatus [("internal", 599)] = 599 ∧
    ((lgerr.New "boom").WithType "strange").HTTPStatus [] = 500 :=
  ⟨(c1_httpStatus_resolution.1 (lgerr.New "boom") [] 418).1,
   rfl,
   c1_httpStatus_resolution.2.1 (lgerr.New "boom") [("internal", 599)] 599
     rfl (by decide),
   c1_httpStatus_resolution.2.2.2 ((lgerr.New "boom").WithType "strange") []
     rfl (by decide) (by decide)⟩

/--
C3 (amended).  With no custom override registered, the rich-error mapping
lgerr.getHTTPStatus yields exactly not_found 404, validation 400,
internal 500, forbidden 403, busy 503, conflict 409, external 502,
timeout 504; the second exposed mapping, erri.HTTPStatusCode, has no
conflict/external/timeout classifications (they fall to its 500 default)
and maps BUSY to 409 (http.StatusConflict), not 503.
-/
theorem c3_default_status_tables :
    (lgerr.getHTTPStatus [] lgerr.TypeNotFound = 404 ∧
     lgerr.getHTTPStatus [] lgerr.TypeValidation = 400 ∧
     lgerr.getHTTPStatus [] lgerr.TypeInternal = 500 ∧
     lgerr.getHTTPStatus [] lgerr.TypeForbidden = 403 ∧
     lgerr.getHTTPStatus [] lgerr.TypeBusy = 503 ∧
     lgerr.getHTTPStatus [] lgerr.TypeConflict = 409 ∧
     lgerr.getHTTPStatus [] lgerr.TypeExternal = 502 ∧
     lgerr.getHTTPStatus [] lgerr.TypeTimeout = 504) ∧
    (erri.HTTPStatusCode "NOT_FOUND" = 404 ∧
     erri.HTTPStatusCode "VALIDATION" = 400 ∧
     erri.HTTPStatusCode "INTERNAL" = 500 ∧
     erri.HTTPStatusCode "FORBIDDEN" = 403 ∧
     erri.HTTPStatusCode "BUSY" = 409 ∧
     erri.HTTPStatusCode "CONFLICT" = 500 ∧
     erri.HTTPStatusCode "EXTERNAL" = 500 ∧
     erri.HTTPStatusCode "TIMEOUT" = 500) := by
  decide

/-- Counterexample for C3 as stated: the erri mapping sends the busy
classification to 409, not 503. -/
theorem c3_busy_maps_to_409 : erri.HTTPStatusCode "BUSY" ≠ 503 := by
  decide

/-- Counterexample for C4 as stated: the case-sensitive parser copy in
pkg/core/utils.go sends "info" to warn, not info. -/
theorem c4_utils_parser_drops_info :
    coreUtils.GetLvlFromStr "info" = levelWarn ∧ levelWarn ≠ levelInfo := by
  decide

/--
C4 (amended).  The parser in pkg/core/levels.go is case-insensitive: any
casing of debug/info/warn/error yields the matching level, "warning" also
yields warn, every other string and an unset variable yield warn.  The
second copy of the parser in pkg/core/utils.go is case-sensitive: exactly
"debug", "warn" and "error" are recognised and every other string — any
other casing and "info" included — and an unset variable yield warn.
-/
theorem c4_level_parsing :
    (∀ s, toLowerGo s = "debug" → core.GetLvlFromStr s = levelDebug) ∧
    (∀ s, toLowerGo s = "info" → core.GetLvlFromStr s = levelInfo) ∧
    (∀ s, toLowerGo s = "warn" → core.GetLvlFromStr s = levelWarn) ∧
    (∀ s, toLowerGo s = "warning" → core.GetLvlFromStr s = levelWarn) ∧
    (∀ s, toLowerGo s = "error" → core.GetLvlFromStr s = levelError) ∧
    (∀ s, toLowerGo s ∉ ["debug", "info", "warn", "warning", "error"] →
      core.GetLvlFromStr s = levelWarn) ∧
    (∀ env key, env key = "" → core.GetLvlFromEnv env key = levelWarn) ∧
    (coreUtils.GetLvlFromStr "debug" = levelDebug ∧
     coreUtils.GetLvlFromStr "warn" = levelWarn ∧
     coreUtils.GetLvlFromStr "error" = levelError) ∧
    (∀ s, s ≠ "debug" → s ≠ "warn" → s ≠ "error" →
      coreUtils.GetLvlFromStr s = levelWarn) ∧
    (∀ env key, env key = "" → coreUtils.GetLvlFromEnv env key = levelWarn) := by
  refine ⟨?_, ?_, ?_, ?_, ?_, ?_, ?_, by decide, ?_, ?_⟩
  · intro s h; simp [core.GetLvlFromStr, h]
  · intro s h; simp [core.GetLvlFromStr, h]
  · intro s h; simp [core.GetLvlFromStr, h]
  · intro s h; simp [core.GetLvlFromStr, h]
  · intro s h; simp [core.GetLvlFromStr, h]
  · intro s h
    simp only [List.mem_cons, List.not_mem_nil, or_false, not_or] at h
    obtain ⟨h1, h2, h3, h4, h5⟩ := h
    simp [core.GetLvlFromStr, h1, h2, h3, h4, h5]
  · intro env key h; simp [core.GetLvlFromEnv, h]
  · intro s h1 h2 h3; simp [coreUtils.GetLvlFromStr, h1, h2, h3]
  · intro env key h; simp [coreUtils.GetLvlFromEnv, h]

/-- Witness for C4 at concrete inputs. -/
theorem c4_level_parsing_witness :
    toLowerGo "DeBuG" = "debug" ∧ core.GetLvlFromStr "DeBuG" = levelDebug ∧
    toLowerGo "INFO" = "info" ∧ core.GetLvlFromStr "INFO" = levelInfo ∧
    toLowerGo "silent" ∉ ["debug", "info", "warn", "warning", "error"] ∧
    core.GetLvlFromStr "silent" = levelWarn ∧
    coreUtils.GetLvlFromStr "INFO" = levelWarn ∧
    core.GetLvlFromEnv (fun _ => "") "log_level" = levelWarn :=
  ⟨by decide, c4_level_parsing.1 "DeBuG" (by decide),
   by decide, c4_level_parsing.2.1 "INFO" (by decide),
   by decide, c4_level_parsing.2.2.2.2.2.1 "silent" (by decide),
   c4_level_parsing.2.2.2.2.2.2.2.2.1 "INFO" (by decide) (by decide) (by decide),
   c4_level_parsing.2.2.2.2.2.2.1 (fun _ => "") "log_level" rfl⟩

/--
C5.  For every sequence of N validation failures added to a rich error
that carries none yet — via repeated WithValidationError or via
WithValidationErrors — converting the error with ToErrorResponse yields an
errors list with exactly N entries in insertion order.
-/
theorem c5_validation_roundtrip :
    (∀ (e : lgerr.Error) (failures : List (String × String × Option GoValue)),
      e.validationErrors = [] →
      (e.addValidationFailures failures).ToErrorResponse.errors =
        failures.map (fun f =>
          { field := f.1, message := f.2.1, value := f.2.2 }) ∧
      ((e.addValidationFailures failures).ToErrorResponse.errors).length =
        failures.length) ∧
    (∀ (e : lgerr.Error) (vs : List lgerr.ValidationError),
      (e.WithValidationErrors vs).ToErrorResponse.errors = vs ∧
      ((e.WithValidationErrors vs).ToErrorResponse.errors).length =
        vs.length) := by
  constructor
  · intro e failures h
    have hv := lgerr.addValidationFailures_validationErrors failures e
    rw [h] at hv
    constructor
    · simp [lgerr.Error.ToErrorResponse, hv]
    · simp [lgerr.Error.ToErrorResponse, hv]
  · intro e vs
    exact ⟨rfl, rfl⟩

/-- Witness for C5 at concrete inputs. -/
theorem c5_validation_roundtrip_witness :
    (lgerr.New "v").validationErrors = [] ∧
    ((lgerr.New "v").addValidationFailures
        [("a", "m1", none), ("b", "m2", some (.intV 1))]).ToErrorResponse.errors =
      [{ field := "a", message := "m1", value := none },
       { field := "b", message := "m2", value := some (.intV 1) }] ∧
    ((lgerr.New "v").WithValidationErrors
        [{ field := "c", message := "m3", value := none }]).ToErrorResponse.errors =
      [{ field := "c", message := "m3", value := none }] :=
  ⟨rfl,
   ((c5_validation_roundtrip.1 (lgerr.New "v")
      [("a", "m1", none), ("b", "m2", some (.intV 1))] rfl).1),
   (c5_validation_roundtrip.2 (lgerr.New "v")
      [{ field := "c", message := "m3", value := none }]).1⟩

/--
C7.  For every log call issued through the logging shim at a level
strictly below the handler's configured minimum, no line is written and no
event is forwarded to the tracker.
-/
theorem c7_below_min_level_silent :
    ∀ (h : handler.CustomHandler) (g : lgsentry.Integration) (level : Int),
      level < h.level →
      logger.LogWithSource h g level =
        { linesWritten := 0, sentryEvents := 0 } := by
  intro h g level hlt
  have hdis : h.Enabled level = false := by
    simp [handler.CustomHandler.Enabled]
    omega
  simp [logger.LogWithSource, hdis]

/-- Witness for C7 at concrete inputs. -/
theorem c7_below_min_level_silent_witness :
    levelInfo < (4 : Int) ∧
    logger.LogWithSource
        { level := 4, addSource := true, enableSentry := true }
        { initiated := true, filterLevels := [levelDebug] } levelInfo =
      { linesWritten := 0, sentryEvents := 0 } :=
  ⟨by decide,
   c7_below_min_level_silent
     { level := 4, addSource := true, enableSentry := true }
     { initiated := true, filterLevels := [levelDebug] } levelInfo (by decide)⟩

/--
C8.  Every rich error built by the not-found constructor, with no custom
mapping registered for the not_found classification and no per-instance
override (the constructor sets none), is answered by the Fiber error
handler with HTTP status 404 and the fixed payload title
"Resource Not Found".
-/
theorem c8_notFound_default_response :
    ∀ (resource : String) (id : GoValue) (cfg : config.SentryConfig)
      (custom : List (lgerr.ErrorType × Int)) (hubPresent : Bool),
      custom.lookup lgerr.TypeNotFound = none →
      (lgerr.NotFound resource id).httpStatus = none ∧
      (lgfiber.ErrorHandler cfg custom hubPresent
          (.lg (lgerr.NotFound resource id))).1.status = 404 ∧
      (lgfiber.ErrorHandler cfg custom hubPresent
          (.lg (lgerr.NotFound resource id))).1.payload.title =
        "Resource Not Found" := by
  intro resource id cfg custom hubPresent h
  simp only [lgerr.TypeNotFound] at h
  refine ⟨rfl, ?_, rfl⟩
  simp [lgfiber.ErrorHandler, lgfiber.toLgError, lgerr.Error.HTTPStatus,
    lgerr.NotFound, lgerr.NewWithOptions, lgerr.New, lgerr.WithMessage,
    lgerr.WithTypeOpt, lgerr.WithContextKV, lgerr.WithTitleOpt,
    lgerr.WithDetailOpt, lgerr.getHTTPStatus, h, lgerr.TypeNotFound]
  try decide

/-- Witness for C8 at concrete inputs. -/
theorem c8_notFound_default_response_witness :
    (List.lookup lgerr.TypeNotFound
        ([] : List (lgerr.ErrorType × Int))) = none ∧
    (lgfiber.ErrorHandler {} [] false
        (.lg (lgerr.NotFound "user" (.intV 7)))).1.status = 404 ∧
    (lgfiber.ErrorHandler {} [] false
        (.lg (lgerr.NotFound "user" (.intV 7)))).1.payload.title =
      "Resource Not Found" :=
  ⟨rfl,
   (c8_notFound_default_response "user" (.intV 7) {} [] false rfl).2.1,
   (c8_notFound_default_response "user" (.intV 7) {} [] false rfl).2.2⟩

/--
C2.  With the global error-tracking flag off, the manual capture path,
the Fiber error-handler path (shouldSendToSentry and ErrorHandler) and
the panic-recovery path all forward zero events — but the tee-to-tracker
slog handler path does not consult the flag at all: once lgsentry.Init
has succeeded and the record level passes the configured filter, the
handler forwards the event even though the flag is false.  This theorem
records the guarded paths and evaluates the tee path at the failing
input (handler teeing enabled, integration initiated, error-level record,
flag at its false default).
-/
theorem c2_disabled_flag_paths :
    (∀ (cfg : config.SentryConfig) (ctxDone : Bool),
      config.IsSentryEnabled cfg = false →
      lgsentry.CaptureEventCount cfg ctxDone = 0) ∧
    (∀ (cfg : config.SentryConfig)
      (custom : List (lgerr.ErrorType × Int)) (e : lgerr.Error)
      (hubPresent : Bool),
      config.IsSentryEnabled cfg = false →
      lgfiber.shouldSendToSentry cfg custom e hubPresent = false) ∧
    (∀ (cfg : config.SentryConfig)
      (custom : List (lgerr.ErrorType × Int)) (hubPresent : Bool)
      (err : lgfiber.FiberError),
      config.IsSentryEnabled cfg = false →
      (lgfiber.ErrorHandler cfg custom hubPresent err).2 = 0) ∧
    (∀ (cfg : config.SentryConfig) (hubPresent : Bool)
      (file : String) (line : Int) (v : String),
      config.IsSentryEnabled cfg = false →
      (lgfiber.RecoverMiddleware cfg hubPresent file line
          (.panicked v)).sentryPanicEvents = 0) ∧
    ((logger.LogWithSource
        { level := levelError, addSource := true, enableSentry := true }
        { initiated := true, filterLevels := [levelError] }
        levelError).sentryEvents = 1) := by
  refine ⟨?_, ?_, ?_, ?_, by decide⟩
  · intro cfg ctxDone h
    simp [lgsentry.CaptureEventCount, h]
  · intro cfg custom e hubPresent h
    simp [lgfiber.shouldSendToSentry, h]
  · intro cfg custom hubPresent err h
    simp [lgfiber.ErrorHandler, lgfiber.shouldSendToSentry, h]
  · intro cfg hubPresent file line v h
    simp [lgfiber.RecoverMiddleware, config.IsSentryEnabled] at h ⊢
    simp [h]

/-- Witness for C2's guarded paths at concrete inputs (the default
configuration has the flag off). -/
theorem c2_disabled_flag_paths_witness :
    config.IsSentryEnabled {} = false ∧
    lgsentry.CaptureEventCount {} false = 0 ∧
    lgfiber.shouldSendToSentry {} [] (lgerr.New "x") true = false ∧
    (lgfiber.ErrorHandler {} [] true (.generic "g" "errorString")).2 = 0 ∧
    (lgfiber.RecoverMiddleware {} true "app/main.go" 10
        (.panicked "boom")).sentryPanicEvents = 0 :=
  ⟨rfl,
   c2_disabled_flag_paths.1 {} false rfl,
   c2_disabled_flag_paths.2.1 {} [] (lgerr.New "x") true rfl,
   c2_disabled_flag_paths.2.2.1 {} [] true (.generic "g" "errorString") rfl,
   c2_disabled_flag_paths.2.2.2.1 {} true "app/main.go" 10 "boom" rfl⟩

/--
C6.  Every panic raised in a downstream handler is swallowed by the
recovery middleware: exactly one 500 response goes to the client, the
panic never propagates, and — exactly when tracking is enabled and a hub
is attached to the request — exactly one exception event is forwarded,
its scope tagged panic_recovered=true.
-/
theorem c6_panic_recovery :
    ∀ (cfg : config.SentryConfig) (hubPresent : Bool) (file : String)
      (line : Int) (v : String),
      (lgfiber.RecoverMiddleware cfg hubPresent file line
          (.panicked v)).responses =
        [(500, "Internal Server Error", "An unexpected error occurred")] ∧
      (lgfiber.RecoverMiddleware cfg hubPresent file line
          (.panicked v)).panicPropagated = false ∧
      (config.IsSentryEnabled cfg = true → hubPresent = true →
        (lgfiber.RecoverMiddleware cfg hubPresent file line
            (.panicked v)).sentryPanicEvents = 1 ∧
        ("panic_recovered", "true") ∈
          (lgfiber.RecoverMiddleware cfg hubPresent file line
              (.panicked v)).eventTags) ∧
      (¬(config.IsSentryEnabled cfg = true ∧ hubPresent = true) →
        (lgfiber.RecoverMiddleware cfg hubPresent file line
            (.panicked v)).sentryPanicEvents = 0) := by
  intro cfg hubPresent file line v
  refine ⟨?_, ?_, ?_, ?_⟩
  · simp [lgfiber.RecoverMiddleware]
  · by_cases hs : config.IsSentryEnabled cfg = true ∧ hubPresent = true
    · simp [lgfiber.RecoverMiddleware, config.IsSentryEnabled] at hs ⊢
    · simp [lgfiber.RecoverMiddleware, config.IsSentryEnabled] at hs ⊢
  · intro h1 h2
    simp [config.IsSentryEnabled] at h1
    refine ⟨?_, ?_⟩
    · simp [lgfiber.RecoverMiddleware, config.IsSentryEnabled, h1, h2]
    · simp [lgfiber.RecoverMiddleware, config.IsSentryEnabled, h1, h2]
  · intro h
    simp only [not_and] at h
    by_cases h1 : config.IsSentryEnabled cfg = true
    · have h2 := h h1
      have h2f : hubPresent = false := by
        cases hubPresent
        · rfl
        · exact absurd rfl h2
      simp [lgfiber.RecoverMiddleware, config.IsSentryEnabled] at h1 ⊢
      simp [h1, h2f]
    · have h1f : cfg.sentryEnabled = false := by
        simp [config.IsSentryEnabled] at h1
        exact h1
      simp [lgfiber.RecoverMiddleware, config.IsSentryEnabled, h1f]

/-- Witness for C6 at concrete inputs (flag on, hub present; and flag
off for the zero-event branch). -/
theorem c6_panic_recovery_witness :
    (lgfiber.RecoverMiddleware { sentryEnabled := true } true "app/main.go" 10
        (.panicked "boom")).responses =
      [(500, "Internal Server Error", "An unexpected error occurred")] ∧
    (lgfiber.RecoverMiddleware { sentryEnabled := true } true "app/main.go" 10
        (.panicked "boom")).panicPropagated = false ∧
    (lgfiber.RecoverMiddleware { sentryEnabled := true } true "app/main.go" 10
        (.panicked "boom")).sentryPanicEvents = 1 ∧
    ("panic_recovered", "true") ∈
      (lgfiber.RecoverMiddleware { sentryEnabled := true } true "app/main.go" 10
          (.panicked "boom")).eventTags ∧
    (lgfiber.RecoverMiddleware {} false "app/main.go" 10
        (.panicked "boom")).sentryPanicEvents = 0 :=
  ⟨(c6_panic_recovery { sentryEnabled := true } true "app/main.go" 10 "boom").1,
   (c6_panic_recovery { sentryEnabled := true } true "app/main.go" 10 "boom").2.1,
   ((c6_panic_recovery { sentryEnabled := true } true "app/main.go" 10 "boom").2.2.1
      rfl rfl).1,
   ((c6_panic_recovery { sentryEnabled := true } true "app/main.go" 10 "boom").2.2.1
      rfl rfl).2,
   (c6_panic_recovery {} false "app/main.go" 10 "boom").2.2.2 (by decide)⟩

namespace lgsentry

lemma mapSet_fresh {α : Type} (m : List (String × α)) (k : String) (v : α)
    (h : ∀ p ∈ m, p.1 ≠ k) : mapSet m k v = m ++ [(k, v)] := by
  have hany : (m.any fun p => p.1 = k) = false := by
    rw [List.any_eq_false]
    intro p hp
    simpa using h p hp
  simp [mapSet, hany]

lemma fresh_push {α : Type} (m : List (String × α)) (x : α) (k : String)
    (ks : List String) (hm : ∀ p ∈ m, p.1 ∉ ks) (hk : k ∉ ks) :
    ∀ p ∈ m ++ [(k, x)], p.1 ∉ ks := by
  intro p hp
  rcases List.mem_append.mp hp with h1 | h2
  · exact hm p h1
  · simp only [List.mem_singleton] at h2
    rw [h2]
    exact hk

lemma fresh_tail {α : Type} (m : List (String × α)) (k : String)
    (ks : List String) (hm : ∀ p ∈ m, p.1 ∉ k :: ks) :
    ∀ p ∈ m, p.1 ∉ ks := by
  intro p hp
  have := hm p hp
  simp only [List.mem_cons, not_or] at this
  exact this.2

lemma fresh_head {α : Type} (m : List (String × α)) (k : String)
    (ks : List String) (hm : ∀ p ∈ m, p.1 ∉ k :: ks) :
    ∀ p ∈ m, p.1 ≠ k := by
  intro p hp
  have := hm p hp
  simp only [List.mem_cons, not_or] at this
  exact this.1

lemma extractGo_some (e : Nat) :
    ∀ (attrs : List Attr) (tags : List (String × String))
      (extra : List (String × GoValue)),
      (∀ p ∈ tags, p.1 ∉ attrs.map Attr.key) →
      (∀ p ∈ extra, p.1 ∉ attrs.map Attr.key) →
      (attrs.map Attr.key).Nodup →
      extractGo attrs tags extra (some e) =
        (tags ++ tagsSpec attrs, extra ++ extraSeenSpec attrs, some e) := by
  intro attrs
  induction attrs with
  | nil =>
    intro tags extra _ _ _
    simp [extractGo, tagsSpec, extraSeenSpec]
  | cons a rest ih =>
    intro tags extra hT hE hN
    simp only [List.map_cons] at hT hE hN
    have hnd := List.nodup_cons.mp hN
    have hTr := fresh_tail tags a.key (rest.map Attr.key) hT
    have hEr := fresh_tail extra a.key (rest.map Attr.key) hE
    have hTk := fresh_head tags a.key (rest.map Attr.key) hT
    have hEk := fresh_head extra a.key (rest.map Attr.key) hE
    cases hv : a.value with
    | errV i =>
      simp only [extractGo, hv]
      rw [mapSet_fresh extra a.key (.errV i) hEk]
      have hI := ih tags (extra ++ [(a.key, GoValue.errV i)]) hTr
        (fresh_push extra (GoValue.errV i) a.key (rest.map Attr.key) hEr hnd.1)
        hnd.2
      rw [hI]
      simp [tagsSpec, extraSeenSpec, extraOf, List.filterMap_cons, hv,
        isTagValue]
    | strV s =>
      by_cases hcond : goLen s < maxTagLength ∧ goContainsNewline s = false
      · simp only [extractGo, hv, if_pos hcond]
        rw [mapSet_fresh tags a.key s hTk]
        have hI := ih (tags ++ [(a.key, s)]) extra
          (fresh_push tags s a.key (rest.map Attr.key) hTr hnd.1) hEr hnd.2
        rw [hI]
        simp [tagsSpec, extraSeenSpec, extraOf, List.filterMap_cons, hv,
          isTagValue, tagRender, hcond]
      · simp only [extractGo, hv, if_neg hcond]
        rw [mapSet_fresh extra a.key (.strV s) hEk]
        have hI := ih tags (extra ++ [(a.key, GoValue.strV s)]) hTr
          (fresh_push extra (GoValue.strV s) a.key (rest.map Attr.key) hEr hnd.1)
          hnd.2
        rw [hI]
        simp [tagsSpec, extraSeenSpec, extraOf, List.filterMap_cons, hv,
          isTagValue, hcond]
    | intV n =>
      simp only [extractGo, hv]
      rw [mapSet_fresh tags a.key (toString n) hTk]
      have hI := ih (tags ++ [(a.key, toString n)]) extra
        (fresh_push tags (toString n) a.key (rest.map Attr.key) hTr hnd.1)
        hEr hnd.2
      rw [hI]
      simp [tagsSpec, extraSeenSpec, extraOf, List.filterMap_cons, hv,
        isTagValue, tagRender]
    | int64V n =>
      simp only [extractGo, hv]
      rw [mapSet_fresh tags a.key (toString n) hTk]
      have hI := ih (tags ++ [(a.key, toString n)]) extra
        (fresh_push tags (toString n) a.key (rest.map Attr.key) hTr hnd.1)
        hEr hnd.2
      rw [hI]
      simp [tagsSpec, extraSeenSpec, extraOf, List.filterMap_cons, hv,
        isTagValue, tagRender]
    | boolV b =>
      simp only [extractGo, hv]
      rw [mapSet_fresh tags a.key (if b then "true" else "false") hTk]
      have hI := ih (tags ++ [(a.key, if b then "true" else "false")]) extra
        (fresh_push tags (if b then "true" else "false") a.key
          (rest.map Attr.key) hTr hnd.1) hEr hnd.2
      rw [hI]
      simp [tagsSpec, extraSeenSpec, extraOf, List.filterMap_cons, hv,
        isTagValue, tagRender]
    | floatV r =>
      simp only [extractGo, hv]
      rw [mapSet_fresh extra a.key (.floatV r) hEk]
      have hI := ih tags (extra ++ [(a.key, GoValue.floatV r)]) hTr
        (fresh_push extra (GoValue.floatV r) a.key (rest.map Attr.key) hEr hnd.1)
        hnd.2
      rw [hI]
      simp [tagsSpec, extraSeenSpec, extraOf, List.filterMap_cons, hv,
        isTagValue]
    | otherV i =>
      simp only [extractGo, hv]
      rw [mapSet_fresh extra a.key (.otherV i) hEk]
      have hI := ih tags (extra ++ [(a.key, GoValue.otherV i)]) hTr
        (fresh_push extra (GoValue.otherV i) a.key (rest.map Attr.key) hEr hnd.1)
        hnd.2
      rw [hI]
      simp [tagsSpec, extraSeenSpec, extraOf, List.filterMap_cons, hv,
        isTagValue]

lemma extractGo_none :
    ∀ (attrs : List Attr) (tags : List (String × String))
      (extra : List (String × GoValue)),
      (∀ p ∈ tags, p.1 ∉ attrs.map Attr.key) →
      (∀ p ∈ extra, p.1 ∉ attrs.map Attr.key) →
      (attrs.map Attr.key).Nodup →
      extractGo attrs tags extra none =
        (tags ++ tagsSpec attrs, extra ++ extraSpec attrs,
          firstErrId attrs) := by
  intro attrs
  induction attrs with
  | nil =>
    intro tags extra _ _ _
    simp [extractGo, tagsSpec, extraSpec, firstErrId]
  | cons a rest ih =>
    intro tags extra hT hE hN
    simp only [List.map_cons] at hT hE hN
    have hnd := List.nodup_cons.mp hN
    have hTr := fresh_tail tags a.key (rest.map Attr.key) hT
    have hEr := fresh_tail extra a.key (rest.map Attr.key) hE
    have hTk := fresh_head tags a.key (rest.map Attr.key) hT
    have hEk := fresh_head extra a.key (rest.map Attr.key) hE
    cases hv : a.value with
    | errV i =>
      simp only [extractGo, hv]
      have hI := extractGo_some i rest tags extra hTr hEr hnd.2
      rw [hI]
      simp [tagsSpec, extraSpec, extraSeenSpec, extraOf, firstErrId,
        List.filterMap_cons, List.eraseP_cons, List.findSome?_cons, hv,
        isTagValue, isErrValue, errId]
    | strV s =>
      by_cases hcond : goLen s < maxTagLength ∧ goContainsNewline s = false
      · simp only [extractGo, hv, if_pos hcond]
        have hI := ih (tags ++ [(a.key, s)]) extra
          (fresh_push tags s a.key (rest.map Attr.key) hTr hnd.1) hEr hnd.2
        rw [mapSet_fresh tags a.key s hTk, hI]
        simp [tagsSpec, extraSpec, extraSeenSpec, extraOf, firstErrId,
          List.filterMap_cons, List.eraseP_cons, List.findSome?_cons, hv,
          isTagValue, isErrValue, errId, tagRender, hcond]
      · simp only [extractGo, hv, if_neg hcond]
        have hI := ih tags (extra ++ [(a.key, GoValue.strV s)]) hTr
          (fresh_push extra (GoValue.strV s) a.key (rest.map Attr.key) hEr
            hnd.1) hnd.2
        rw [mapSet_fresh extra a.key (.strV s) hEk, hI]
        simp [tagsSpec, extraSpec, extraSeenSpec, extraOf, firstErrId,
          List.filterMap_cons, List.eraseP_cons, List.findSome?_cons, hv,
          isTagValue, isErrValue, errId, hcond]
    | intV n =>
      simp only [extractGo, hv]
      have hI := ih (tags ++ [(a.key, toString n)]) extra
        (fresh_push tags (toString n) a.key (rest.map Attr.key) hTr hnd.1)
        hEr hnd.2
      rw [mapSet_fresh tags a.key (toString n) hTk, hI]
      simp [tagsSpec, extraSpec, extraSeenSpec, extraOf, firstErrId,
        List.filterMap_cons, List.eraseP_cons, List.findSome?_cons, hv,
        isTagValue, isErrValue, errId, tagRender]
    | int64V n =>
      simp only [extractGo, hv]
      have hI := ih (tags ++ [(a.key, toString n)]) extra
        (fresh_push tags (toString n) a.key (rest.map Attr.key) hTr hnd.1)
        hEr hnd.2
      rw [mapSet_fresh tags a.key (toString n) hTk, hI]
      simp [tagsSpec, extraSpec, extraSeenSpec, extraOf, firstErrId,
        List.filterMap_cons, List.eraseP_cons, List.findSome?_cons, hv,
        isTagValue, isErrValue, errId, tagRender]
    | boolV b =>
      simp only [extractGo, hv]
      have hI := ih (tags ++ [(a.key, if b then "true" else "false")]) extra
        (fresh_push tags (if b then "true" else "false") a.key
          (rest.map Attr.key) hTr hnd.1) hEr hnd.2
      rw [mapSet_fresh tags a.key (if b then "true" else "false") hTk, hI]
      simp [tagsSpec, extraSpec, extraSeenSpec, extraOf, firstErrId,
        List.filterMap_cons, List.eraseP_cons, List.findSome?_cons, hv,
        isTagValue, isErrValue, errId, tagRender]
    | floatV r =>
      simp only [extractGo, hv]
      have hI := ih tags (extra ++ [(a.key, GoValue.floatV r)]) hTr
        (fresh_push extra (GoValue.floatV r) a.key (rest.map Attr.key) hEr
          hnd.1) hnd.2
      rw [mapSet_fresh extra a.key (.floatV r) hEk, hI]
      simp [tagsSpec, extraSpec, extraSeenSpec, extraOf, firstErrId,
        List.filterMap_cons, List.eraseP_cons, List.findSome?_cons, hv,
        isTagValue, isErrValue, errId]
    | otherV i =>
      simp only [extractGo, hv]
      have hI := ih tags (extra ++ [(a.key, GoValue.otherV i)]) hTr
        (fresh_push extra (GoValue.otherV i) a.key (rest.map Attr.key) hEr
          hnd.1) hnd.2
      rw [mapSet_fresh extra a.key (.otherV i) hEk, hI]
      simp [tagsSpec, extraSpec, extraSeenSpec, extraOf, firstErrId,
        List.filterMap_cons, List.eraseP_cons, List.findSome?_cons, hv,
        isTagValue, isErrValue, errId]

lemma parseGo_spec :
    ∀ (attrs : List Attr) (tags : List (String × String))
      (extra : List (String × GoValue)),
      (∀ p ∈ tags, p.1 ∉ attrs.map Attr.key) →
      (∀ p ∈ extra, p.1 ∉ attrs.map Attr.key) →
      (attrs.map Attr.key).Nodup →
      parseGo attrs tags extra =
        (tags ++ manualTagsSpec attrs, extra ++ manualExtraSpec attrs) := by
  intro attrs
  induction attrs with
  | nil =>
    intro tags extra _ _ _
    simp [parseGo, manualTagsSpec, manualExtraSpec]
  | cons a rest ih =>
    intro tags extra hT hE hN
    simp only [List.map_cons] at hT hE hN
    have hnd := List.nodup_cons.mp hN
    have hTr := fresh_tail tags a.key (rest.map Attr.key) hT
    have hEr := fresh_tail extra a.key (rest.map Attr.key) hE
    have hTk := fresh_head tags a.key (rest.map Attr.key) hT
    have hEk := fresh_head extra a.key (rest.map Attr.key) hE
    cases hv : a.value with
    | errV i =>
      simp only [parseGo, hv]
      rw [ih tags extra hTr hEr hnd.2]
      simp [manualTagsSpec, manualExtraSpec, List.filterMap_cons, hv,
        isManualTagValue, isErrValue]
    | strV s =>
      by_cases hcond : goLen s < maxTagLength ∧ goContainsNewline s = false
      · simp only [parseGo, hv, if_pos hcond]
        have hI := ih (tags ++ [(a.key, s)]) extra
          (fresh_push tags s a.key (rest.map Attr.key) hTr hnd.1) hEr hnd.2
        rw [mapSet_fresh tags a.key s hTk, hI]
        simp [manualTagsSpec, manualExtraSpec, List.filterMap_cons, hv,
          isManualTagValue, isErrValue, tagRender, hcond]
      · simp only [parseGo, hv, if_neg hcond]
        have hI := ih tags (extra ++ [(a.key, GoValue.strV s)]) hTr
          (fresh_push extra (GoValue.strV s) a.key (rest.map Attr.key) hEr
            hnd.1) hnd.2
        rw [mapSet_fresh extra a.key (.strV s) hEk, hI]
        simp [manualTagsSpec, manualExtraSpec, List.filterMap_cons, hv,
          isManualTagValue, isErrValue, hcond]
    | intV n =>
      simp only [parseGo, hv]
      have hI := ih (tags ++ [(a.key, toString n)]) extra
        (fresh_push tags (toString n) a.key (rest.map Attr.key) hTr hnd.1)
        hEr hnd.2
      rw [mapSet_fresh tags a.key (toString n) hTk, hI]
      simp [manualTagsSpec, manualExtraSpec, List.filterMap_cons, hv,
        isManualTagValue, isErrValue, tagRender]
    | int64V n =>
      simp only [parseGo, hv]
      have hI := ih (tags ++ [(a.key, toString n)]) extra
        (fresh_push tags (toString n) a.key (rest.map Attr.key) hTr hnd.1)
        hEr hnd.2
      rw [mapSet_fresh tags a.key (toString n) hTk, hI]
      simp [manualTagsSpec, manualExtraSpec, List.filterMap_cons, hv,
        isManualTagValue, isErrValue, tagRender]
    | boolV b =>
      simp only [parseGo, hv]
      have hI := ih (tags ++ [(a.key, if b then "true" else "false")]) extra
        (fresh_push tags (if b then "true" else "false") a.key
          (rest.map Attr.key) hTr hnd.1) hEr hnd.2
      rw [mapSet_fresh tags a.key (if b then "true" else "false") hTk, hI]
      simp [manualTagsSpec, manualExtraSpec, List.filterMap_cons, hv,
        isManualTagValue, isErrValue, tagRender]
    | floatV r =>
      simp only [parseGo, hv]
      have hI := ih (tags ++ [(a.key, r)]) extra
        (fresh_push tags r a.key (rest.map Attr.key) hTr hnd.1) hEr hnd.2
      rw [mapSet_fresh tags a.key r hTk, hI]
      simp [manualTagsSpec, manualExtraSpec, List.filterMap_cons, hv,
        isManualTagValue, isErrValue, tagRender]
    | otherV i =>
      simp only [parseGo, hv]
      have hI := ih tags (extra ++ [(a.key, GoValue.otherV i)]) hTr
        (fresh_push extra (GoValue.otherV i) a.key (rest.map Attr.key) hEr
          hnd.1) hnd.2
      rw [mapSet_fresh extra a.key (.otherV i) hEk, hI]
      simp [manualTagsSpec, manualExtraSpec, List.filterMap_cons, hv,
        isManualTagValue, isErrValue]

end lgsentry

/--
C10.  For every validation middleware configuration: when parsing
succeeds but struct validation fails with at least one field error, the
middleware answers 422 with exactly one payload entry per failed field
and neither stores the value nor calls the next handler; when parsing and
validation both succeed, the typed value is stored under the configured
locals key and the chain continues.
-/
theorem c10_validation_middleware :
    (∀ (conf : lgfiber.ValidationConfig) (l : List lgfiber.FieldErr),
      l ≠ [] →
      (lgfiber.genericValidationMiddleware conf .parsed (.invalid l)).status =
        some 422 ∧
      ((lgfiber.genericValidationMiddleware conf .parsed
          (.invalid l)).payload.map fun p => p.errors.length) =
        some l.length ∧
      (lgfiber.genericValidationMiddleware conf .parsed
          (.invalid l)).nextCalled = false ∧
      (lgfiber.genericValidationMiddleware conf .parsed
          (.invalid l)).localsStored = none) ∧
    (∀ conf : lgfiber.ValidationConfig,
      (lgfiber.genericValidationMiddleware conf .parsed .ok).localsStored =
        some conf.localsKey ∧
      (lgfiber.genericValidationMiddleware conf .parsed .ok).nextCalled =
        true ∧
      (lgfiber.genericValidationMiddleware conf .parsed .ok).status = none) := by
  constructor
  · intro conf l hne
    have hlen :
        (lgfiber.parseValidationErrors (some l)).length = l.length := by
      simp [lgfiber.parseValidationErrors]
    have hpos : 0 < (lgfiber.parseValidationErrors (some l)).length := by
      rw [hlen]
      exact List.length_pos.mpr hne
    have hlp : 0 < l.length := List.length_pos.mpr hne
    refine ⟨?_, ?_, ?_, ?_⟩ <;>
      simp [lgfiber.genericValidationMiddleware, hpos, hlen, hlp]
  · intro conf
    refine ⟨rfl, rfl, rfl⟩

/-- Witness for C10 at concrete inputs: one required-field failure under
the default body configuration, and a clean pass. -/
theorem c10_validation_middleware_witness :
    ([({ field := "Email", jsonTag := "email", tag := "required",
         param := "", value := .strV "" } : lgfiber.FieldErr)] ≠ []) ∧
    (lgfiber.genericValidationMiddleware lgfiber.defaultBodyConfig .parsed
        (.invalid [{ field := "Email", jsonTag := "email", tag := "required",
                     param := "", value := .strV "" }])).status = some 422 ∧
    ((lgfiber.genericValidationMiddleware lgfiber.defaultBodyConfig .parsed
        (.invalid [{ field := "Email", jsonTag := "email", tag := "required",
                     param := "", value := .strV "" }])).payload.map
      fun p => p.errors.length) = some 1 ∧
    (lgfiber.genericValidationMiddleware lgfiber.defaultBodyConfig .parsed
        .ok).localsStored = some "body" ∧
    (lgfiber.genericValidationMiddleware lgfiber.defaultBodyConfig .parsed
        .ok).nextCalled = true :=
  ⟨by decide,
   (c10_validation_middleware.1 lgfiber.defaultBodyConfig
      [{ field := "Email", jsonTag := "email", tag := "required",
         param := "", value := .strV "" }] (by decide)).1,
   (c10_validation_middleware.1 lgfiber.defaultBodyConfig
      [{ field := "Email", jsonTag := "email", tag := "required",
         param := "", value := .strV "" }] (by decide)).2.1,
   (c10_validation_middleware.2 lgfiber.defaultBodyConfig).1,
   (c10_validation_middleware.2 lgfiber.defaultBodyConfig).2.1⟩

/-- Counterexample for C9 as stated: a float64 attribute is a scalar
numeric value, yet extractSentryData files it under extra data, not
tags. -/
theorem c9_float_goes_to_extra :
    (lgsentry.extractSentryData [⟨"x", .floatV "1.500000"⟩]).1 = [] ∧
    (lgsentry.extractSentryData [⟨"x", .floatV "1.500000"⟩]).2.1 =
      [("x", .floatV "1.500000")] := by
  decide

/--
C9 (amended).  For every attribute list with pairwise distinct keys:
extractSentryData extracts the first error-typed value as the primary
exception (and only the first); strings shorter than 100 bytes containing
no newline, int, int64 and bool values become tags; every other value —
float64 values, longer or multi-line strings, error values after the
first, and all remaining types — becomes extra data, in attribute order.
The manual-capture splitter parseExtraData additionally turns float64
values into tags (rendered with %f) and drops error values entirely
instead of extracting or storing them.
-/
theorem c9_attr_splitting :
    ∀ attrs : List lgsentry.Attr,
      (attrs.map lgsentry.Attr.key).Nodup →
      lgsentry.extractSentryData attrs =
        (lgsentry.tagsSpec attrs, lgsentry.extraSpec attrs,
          lgsentry.firstErrId attrs) ∧
      lgsentry.parseExtraData attrs =
        (lgsentry.manualTagsSpec attrs, lgsentry.manualExtraSpec attrs) := by
  intro attrs h
  constructor
  · have := lgsentry.extractGo_none attrs [] []
      (by intro p hp; cases hp) (by intro p hp; cases hp) h
    simpa [lgsentry.extractSentryData] using this
  · have := lgsentry.parseGo_spec attrs [] []
      (by intro p hp; cases hp) (by intro p hp; cases hp) h
    simpa [lgsentry.parseExtraData] using this

/-- A concrete attribute list exercising every branch of the splitters:
two errors, a short string, a multi-line string, an int, a bool, a float
and an unhandled type, all under distinct keys. -/
def demoAttrs : List lgsentry.Attr :=
  [⟨"e1", .errV 7⟩, ⟨"s", .strV "hi"⟩, ⟨"m", .strV "a\nb"⟩,
   ⟨"n", .intV 3⟩, ⟨"b", .boolV true⟩, ⟨"f", .floatV "1.500000"⟩,
   ⟨"e2", .errV 9⟩, ⟨"o", .otherV 3⟩]

/-- Witness for C9 at a concrete input. -/
theorem c9_attr_splitting_witness :
    (demoAttrs.map lgsentry.Attr.key).Nodup ∧
    lgsentry.extractSentryData demoAttrs =
      (lgsentry.tagsSpec demoAttrs, lgsentry.extraSpec demoAttrs,
        lgsentry.firstErrId demoAttrs) ∧
    lgsentry.parseExtraData demoAttrs =
      (lgsentry.manualTagsSpec demoAttrs, lgsentry.manualExtraSpec demoAttrs) :=
  ⟨by decide,
   (c9_attr_splitting demoAttrs (by decide)).1,
   (c9_attr_splitting demoAttrs (by decide)).2⟩

end LogBundle
